import Mathlib

/-!
# Home automation simulator and PWM motor ramp demo

A shallow embedding of `home_automation.c` and `motorControlSystem.c`.

* The C globals that the wiringPi calls act on (three digital output pins and
  one soft-PWM channel) are the record `Gpio`.
* Every externally visible action of the program (a `digitalWrite`, a
  `softPwmWrite`, a `printf`, a `delay`) is appended to a chronological trace
  of `Event`s, so that "what was written to the pin" and "what was reported"
  are both observable.
* C `int` values are modelled by `Int`.  No arithmetic in either program can
  overflow (the only arithmetic is `speed += 10` / `speed -= 10` on values in
  `[-10, 110]` and `rand() % 100`), so no wrap-around is needed; every theorem
  quantified over `Int` covers all 32-bit `int` inputs.
* C `float`/`double` values that are finite are modelled by the rational
  number they denote; the arithmetic on them rounds to nearest, ties to even,
  at 53 resp. 24 significant bits.
-/

namespace HomeAutomation

/-! ## Constants (`#define`s, lines 40-47) -/

def LIGHT_PIN : Nat := 0
def MOTOR_PIN1 : Nat := 1
def MOTOR_PIN2 : Nat := 2
def FAN_PWM_PIN : Nat := 3
def TEMP_SENSOR_PIN : Nat := 4

/-- Temperature threshold in Celsius. -/
def TEMP_THRESHOLD : Int := 30

/-- wiringPi `LOW`. -/
def LOW : Bool := false
/-- wiringPi `HIGH`. -/
def HIGH : Bool := true

/-! ## Data model -/

/-- The lines printed by `home_automation.c`, one constructor per `printf`
format string; the arguments are the values substituted for `%d` / `%.2f`. -/
inductive Msg where
  | wiringPiSetupFailed
  | pwmInitFailed
  | banner
  | menu
  | lightTurnedOn
  | lightTurnedOff
  | fanSpeedSet (speed : Int)
  | fanStopped
  | fanStartedForward
  | fanStartedBackward
  | enterFanSpeed
  | currentTemperature (t : ℚ)
  | exceedsThreshold
  | belowThreshold
  | exiting
  | invalidChoice
  deriving DecidableEq, Repr

/-- Externally visible actions, in the order the program performs them. -/
inductive Event where
  | pinMode (pin : Nat)
  | softPwmCreate (pin : Nat) (initial : Int) (range : Int)
  | digitalWrite (pin : Nat) (level : Bool)
  | softPwmWrite (pin : Nat) (value : Int)
  | printf (m : Msg)
  | delay (ms : Nat)
  deriving DecidableEq, Repr

/-- Direction of the fan motor as encoded on the two H-bridge inputs. -/
inductive Direction where
  | Stopped
  | Forward
  | Backward
  | Brake
  deriving DecidableEq, Repr

/-- The actuator state: the last value commanded on each output. -/
structure Gpio where
  light : Bool
  motor1 : Bool
  motor2 : Bool
  fanPwm : Int
  deriving DecidableEq, Repr

/-- Decoding of the two motor pins. -/
def Gpio.direction (g : Gpio) : Direction :=
  match g.motor1, g.motor2 with
  | false, false => Direction.Stopped
  | true, false => Direction.Forward
  | false, true => Direction.Backward
  | true, true => Direction.Brake

/-- Where the process is: executing, or terminated by `exit(code)`. -/
inductive Status where
  | running
  | exited (code : Int)
  deriving DecidableEq, Repr

/-- The whole program state: actuators, the integers that `scanf("%d", ..)`
will still convert, the locals `choice` and `speed` of `main`, the number of
`rand()` calls made so far, the trace of events so far and the process
status.

Once `stdin` is empty `scanf` converts nothing more: the input has ended, or
its next token is not a number (`%d` never consumes such a token, so every
later `scanf` fails on it as well). -/
structure Machine where
  gpio : Gpio
  stdin : List Int
  choice : Int
  speed : Int
  randCalls : Nat
  out : List Event
  status : Status
  deriving DecidableEq, Repr

/-- What the program cannot control: the return values of the two wiringPi
initialisation calls, the sequence `rand()` produces after
`srand(time(NULL))` (`rng i` is the value of the `i`-th call) and the
indeterminate values the uninitialised locals `choice` and `speed` of `main`
hold at first (lines 133-134). -/
structure Env where
  wiringPiSetup : Int
  softPwmCreate : Int
  rng : Nat → Nat
  choice : Int
  speed : Int

/-! ## Library calls -/

/-- The call `printf(..)`: appends the message to the trace. -/
def printf (msg : Msg) (m : Machine) : Machine :=
  { m with out := m.out ++ [Event.printf msg] }

/-- The call `digitalWrite(pin, level)`. -/
def digitalWrite (pin : Nat) (level : Bool) (m : Machine) : Machine :=
  let g := m.gpio
  let g1 :=
    if pin = LIGHT_PIN then { g with light := level }
    else if pin = MOTOR_PIN1 then { g with motor1 := level }
    else if pin = MOTOR_PIN2 then { g with motor2 := level }
    else g
  { m with gpio := g1, out := m.out ++ [Event.digitalWrite pin level] }

/-- The call `softPwmWrite(pin, value)`. -/
def softPwmWrite (pin : Nat) (value : Int) (m : Machine) : Machine :=
  let g := m.gpio
  let g1 := if pin = FAN_PWM_PIN then { g with fanPwm := value } else g
  { m with gpio := g1, out := m.out ++ [Event.softPwmWrite pin value] }

/-- The call `pinMode(pin, OUTPUT)`. -/
def pinMode (pin : Nat) (m : Machine) : Machine :=
  { m with out := m.out ++ [Event.pinMode pin] }

/-- The call `delay(ms)`. -/
def delay (ms : Nat) (m : Machine) : Machine :=
  { m with out := m.out ++ [Event.delay ms] }

/-- The call `exit(code)`. -/
def exit (code : Int) (m : Machine) : Machine :=
  { m with status := Status.exited code }

/-- The call `scanf("%d", &choice)` (line 153), whose return value `main`
ignores: the next integer is stored in `choice`; when nothing can be
converted `choice` keeps the value it had. -/
def scanfChoice (m : Machine) : Machine :=
  match m.stdin with
  | [] => m
  | value :: rest => { m with stdin := rest, choice := value }

/-- The call `scanf("%d", &speed)` (line 164), whose return value `main`
ignores: the next integer is stored in `speed`; when nothing can be converted
`speed` keeps the value it had. -/
def scanfSpeed (m : Machine) : Machine :=
  match m.stdin with
  | [] => m
  | value :: rest => { m with stdin := rest, speed := value }

/-- The call `rand()`: the next value of the generator's sequence. -/
def rand (env : Env) (m : Machine) : Nat × Machine :=
  (env.rng m.randCalls, { m with randCalls := m.randCalls + 1 })

/-! ## Floating point

Finite `double` and `float` values are the rationals they denote.  Rounding
is to nearest, ties to even, to `p` significant bits (`p = 53` for `double`,
`p = 24` for `float`); the exponent range is not modelled, which is exact for
every value the program computes (all lie in `[0.1, 35]` or are `0`).
Expressions are evaluated in the precision of their type (`FLT_EVAL_METHOD`
0, as on the ARM targets the program is written for). -/

/-- The integer `⌊log₂ q⌋` for a rational `q > 0`. -/
def binade (q : ℚ) : Int :=
  if 1 ≤ q then (Nat.log2 (q.num.toNat / q.den) : Int)
  else
    let c := (q.den + q.num.toNat - 1) / q.num.toNat
    if c ≤ 1 then 0 else -((Nat.log2 (c - 1) + 1 : Nat) : Int)

/-- The rational `2 ^ e` for an integer exponent. -/
def pow2 (e : Int) : ℚ :=
  if 0 ≤ e then (2 : ℚ) ^ e.toNat else 1 / (2 : ℚ) ^ (-e).toNat

/-- Nearest integer, ties to the even one. -/
def roundHalfEven (q : ℚ) : Int :=
  let f := Rat.floor q
  let d := q - f
  if d < 1 / 2 then f
  else if 1 / 2 < d then f + 1
  else if f % 2 = 0 then f else f + 1

/-- Rounding of a positive rational to `p` significant bits. -/
def roundPos (p : Nat) (q : ℚ) : ℚ :=
  let ulp := pow2 (binade q - (p - 1 : Nat))
  (roundHalfEven (q / ulp) : ℚ) * ulp

/-- Rounding of any rational to `p` significant bits. -/
def roundToPrec (p : Nat) (q : ℚ) : ℚ :=
  if q = 0 then 0
  else if q < 0 then -(roundPos p (-q))
  else roundPos p q

/-- Conversion to, and rounding of a result in, `double`. -/
def toDouble (q : ℚ) : ℚ := roundToPrec 53 q

/-- Conversion to `float`. -/
def toFloat (q : ℚ) : ℚ := roundToPrec 24 q

/-! ## Sensor (lines 76-85) -/

/-- Source `readTemperature` (lines 76-85):
`return 25.0 + (rand() % 100) / 10.0;` with the `int` operand converted to
`double`, the division and the addition done in `double`, and the result
converted to the return type `float`. -/
def readTemperature (env : Env) (m : Machine) : ℚ × Machine :=
  let (r, m) := rand env m
  (toFloat (toDouble (25 + toDouble (toDouble ((r % 100 : Nat) : ℚ) / 10))), m)

/-! ## Actuator functions (lines 87-130) -/

/-- Source `lightOn` (lines 88-91). -/
def lightOn (m : Machine) : Machine :=
  m |> digitalWrite LIGHT_PIN HIGH |> printf Msg.lightTurnedOn

/-- Source `lightOff` (lines 94-97). -/
def lightOff (m : Machine) : Machine :=
  m |> digitalWrite LIGHT_PIN LOW |> printf Msg.lightTurnedOff

/-- Source `setFanSpeed` (lines 100-105). -/
def setFanSpeed (speed : Int) (m : Machine) : Machine :=
  let speed := if speed < 0 then 0 else speed
  let speed := if speed > 100 then 100 else speed
  m |> softPwmWrite FAN_PWM_PIN speed |> printf (Msg.fanSpeedSet speed)

/-- Source `stopFan` (lines 108-114). -/
def stopFan (m : Machine) : Machine :=
  m |> setFanSpeed 0
    |> digitalWrite MOTOR_PIN1 LOW
    |> digitalWrite MOTOR_PIN2 LOW
    |> printf Msg.fanStopped

/-- Source `startFanForward` (lines 117-122). -/
def startFanForward (speed : Int) (m : Machine) : Machine :=
  m |> digitalWrite MOTOR_PIN1 HIGH
    |> digitalWrite MOTOR_PIN2 LOW
    |> setFanSpeed speed
    |> printf Msg.fanStartedForward

/-- Source `startFanBackward` (lines 125-130). -/
def startFanBackward (speed : Int) (m : Machine) : Machine :=
  m |> digitalWrite MOTOR_PIN1 LOW
    |> digitalWrite MOTOR_PIN2 HIGH
    |> setFanSpeed speed
    |> printf Msg.fanStartedBackward

/-! ## Start-up and the menu loop (lines 50-73, 132-197) -/

/-- Source `setupGPIO` (lines 50-73); the two library calls return
`env.wiringPiSetup` and `env.softPwmCreate`. -/
def setupGPIO (env : Env) (m : Machine) : Machine :=
  if env.wiringPiSetup = -1 then
    m |> printf Msg.wiringPiSetupFailed |> exit 1
  else
    let m := m |> pinMode LIGHT_PIN |> pinMode MOTOR_PIN1
               |> pinMode MOTOR_PIN2 |> pinMode FAN_PWM_PIN
    let m := { m with out := m.out ++ [Event.softPwmCreate FAN_PWM_PIN 0 100] }
    if env.softPwmCreate ≠ 0 then
      m |> printf Msg.pwmInitFailed |> exit 1
    else
      m |> digitalWrite LIGHT_PIN LOW
        |> digitalWrite MOTOR_PIN1 LOW
        |> digitalWrite MOTOR_PIN2 LOW
        |> softPwmWrite FAN_PWM_PIN 0

/-- Lines 173-180 of `main`, case 5: what is done with the value just read
into `temperature`.  `TEMP_THRESHOLD` is converted to `float` for the
comparison. -/
def autoFanControl (temperature : ℚ) (m : Machine) : Machine :=
  let m := m |> printf (Msg.currentTemperature temperature)
  if temperature > toFloat (TEMP_THRESHOLD : ℚ) then
    m |> printf Msg.exceedsThreshold |> startFanForward 75
  else
    m |> printf Msg.belowThreshold |> stopFan

/-- One pass through the body of `while (1)` (lines 145-193).  A process that
has exited does nothing further.  The `switch` is on the local `choice` and
`setFanSpeed` receives the local `speed`, whether or not the preceding `scanf`
stored a new value. -/
def loopBody (env : Env) (m : Machine) : Machine :=
  match m.status with
  | Status.exited _ => m
  | Status.running =>
    let m := m |> printf Msg.menu |> scanfChoice
    if m.choice = 1 then m |> lightOn |> delay 500
    else if m.choice = 2 then m |> lightOff |> delay 500
    else if m.choice = 3 then
      let m := m |> printf Msg.enterFanSpeed |> scanfSpeed
      m |> setFanSpeed m.speed |> delay 500
    else if m.choice = 4 then
      let (temperature, m) := readTemperature env m
      m |> printf (Msg.currentTemperature temperature) |> delay 500
    else if m.choice = 5 then
      let (temperature, m) := readTemperature env m
      m |> autoFanControl temperature |> delay 500
    else if m.choice = 6 then
      m |> printf Msg.exiting |> stopFan |> lightOff |> exit 0
    else
      m |> printf Msg.invalidChoice |> delay 500

/-- The first `n` passes through `while (1)`. -/
def whileLoop (env : Env) : Nat → Machine → Machine
  | 0, m => m
  | n + 1, m => whileLoop env n (loopBody env m)

/-- A running process with actuators in the state `g`, the integers the user
will type in `stdin`, both locals 0, no `rand()` call made and nothing
printed yet. -/
def boot (g : Gpio) (stdin : List Int) : Machine :=
  { gpio := g, stdin := stdin, choice := 0, speed := 0, randCalls := 0, out := [],
    status := Status.running }

/-- Source `main` (lines 132-197), observed after `n` passes through the
menu loop.  The locals `choice` and `speed` are declared without an
initialiser and start with the values the environment gives them. -/
def main (env : Env) (g : Gpio) (stdin : List Int) (n : Nat) : Machine :=
  let m := { boot g stdin with choice := env.choice, speed := env.speed }
  let m := setupGPIO env m
  match m.status with
  | Status.running => whileLoop env n (m |> printf Msg.banner)
  | _ => m

/-- Scenario A of the specification: the values returned by `n` successive
calls of `readTemperature`. -/
def samples (env : Env) : Nat → Machine → List ℚ
  | 0, _ => []
  | n + 1, m =>
    let (temperature, m) := readTemperature env m
    temperature :: samples env n m

/-- A level is admissible when it lies in `[0,100]`. -/
def levelInRange (level : Int) : Prop := 0 ≤ level ∧ level ≤ 100

instance (level : Int) : Decidable (levelInRange level) := by
  unfold levelInRange; infer_instance

/-- An event respects the level bound: a `softPwmWrite` carries an admissible
level, a fan speed report shows one; other events are unconstrained. -/
def Event.levelOk : Event → Prop
  | Event.softPwmWrite _ value => levelInRange value
  | Event.printf (Msg.fanSpeedSet speed) => levelInRange speed
  | _ => True

/-- The level invariant of a program state: the level currently applied to
the fan PWM is admissible and so is every level issued so far. -/
def Machine.levelInv (m : Machine) : Prop :=
  levelInRange m.gpio.fanPwm ∧ ∀ e ∈ m.out, e.levelOk

/-- All actuators off. -/
def Gpio.allOff : Gpio :=
  { light := false, motor1 := false, motor2 := false, fanPwm := 0 }

/-! ## Concrete scenarios -/

/-- An environment in which both initialisation calls succeed, `rand()`
always returns `r`, and the uninitialised locals `choice` and `speed` happen
to hold 3 and `INT_MAX`. -/
def healthyEnv (r : Nat) : Env :=
  { wiringPiSetup := 0, softPwmCreate := 0, rng := fun _ => r,
    choice := 3, speed := 2147483647 }

/-- A prior actuator state with the light on and the fan running backwards at
level 40. -/
def busyGpio : Gpio :=
  { light := true, motor1 := false, motor2 := true, fanPwm := 40 }

end HomeAutomation

namespace MotorControl

/-! ## `motorControlSystem.c` -/

def GPIO_PIN_MOTOR_FORWARD : Int := 1
def GPIO_PIN_MOTOR_BACKWARD : Int := 0

/-- The lines printed by `motorControlSystem.c`, one constructor per `printf`
format string. -/
inductive Msg where
  | banner
  | motorRunning (dutyCycle : Int)
  | invalidDutyCycle
  | directionForward
  | directionBackward
  | invalidDirection
  | motorStopped
  deriving DecidableEq, Repr

/-- Externally visible actions of the motor demo. -/
inductive Event where
  | printf (m : Msg)
  | sleep (seconds : Nat)
  deriving DecidableEq, Repr

/-- The program has no state besides its locals; a run is its trace. -/
abbrev Trace := List Event

/-- The call `printf(..)`. -/
def printf (msg : Msg) (t : Trace) : Trace := t ++ [Event.printf msg]

/-- The call `sleep(seconds)`. -/
def sleep (seconds : Nat) (t : Trace) : Trace := t ++ [Event.sleep seconds]

/-- Source `setMotorSpeed` (lines 30-36). -/
def setMotorSpeed (dutyCycle : Int) (t : Trace) : Trace :=
  if dutyCycle ≥ 0 ∧ dutyCycle ≤ 100 then
    t |> printf (Msg.motorRunning dutyCycle)
  else
    t |> printf Msg.invalidDutyCycle

/-- Source `setMotorDirection` (lines 39-47). -/
def setMotorDirection (direction : Int) (t : Trace) : Trace :=
  if direction = GPIO_PIN_MOTOR_FORWARD then
    t |> printf Msg.directionForward
  else if direction = GPIO_PIN_MOTOR_BACKWARD then
    t |> printf Msg.directionBackward
  else
    t |> printf Msg.invalidDirection

/-- Source `stopMotor` (lines 50-52). -/
def stopMotor (t : Trace) : Trace :=
  t |> printf Msg.motorStopped

/-- The loop of lines 64-67, entered with the given value of `speed`:
`for (..; speed <= 100; speed += 10) { setMotorSpeed(speed); sleep(1); }`. -/
def rampUp (speed : Int) (t : Trace) : Trace :=
  if speed ≤ 100 then
    rampUp (speed + 10) (t |> setMotorSpeed speed |> sleep 1)
  else t
termination_by (101 - speed).toNat
decreasing_by omega

/-- The loop of lines 74-77, entered with the given value of `speed`:
`for (..; speed >= 0; speed -= 10) { setMotorSpeed(speed); sleep(1); }`. -/
def rampDown (speed : Int) (t : Trace) : Trace :=
  if speed ≥ 0 then
    rampDown (speed - 10) (t |> setMotorSpeed speed |> sleep 1)
  else t
termination_by (speed + 1).toNat
decreasing_by omega

/-- Source `main` (lines 54-83): the trace of the run and the value
returned. -/
def main : Trace × Int :=
  let direction := GPIO_PIN_MOTOR_FORWARD
  let t := [] |> printf Msg.banner
  let t := t |> setMotorDirection direction
  let t := t |> rampUp 0
  let direction := GPIO_PIN_MOTOR_BACKWARD
  let t := t |> setMotorDirection direction
  let t := t |> rampDown 100
  let t := t |> stopMotor
  (t, 0)

end MotorControl

/-! # Theorems -/

namespace HomeAutomation

/-- Unfolding of `setFanSpeed`: the PWM channel and the report both receive the
same value, given by the two guarded assignments. -/
theorem setFanSpeed_eq (speed : Int) (m : Machine) :
    setFanSpeed speed m =
      { m with
        gpio := { m.gpio with fanPwm := max 0 (min 100 speed) }
        out := m.out ++ [Event.softPwmWrite FAN_PWM_PIN (max 0 (min 100 speed)),
                         Event.printf (Msg.fanSpeedSet (max 0 (min 100 speed)))] } := by
  have h : (if (if speed < 0 then 0 else speed) > 100 then 100
      else (if speed < 0 then 0 else speed)) = max 0 (min 100 speed) := by
    split_ifs <;> omega
  simp only [setFanSpeed, softPwmWrite, printf, h, if_true, List.append_assoc,
    List.singleton_append]

/-- Unfolding of `stopFan`. -/
theorem stopFan_eq (m : Machine) :
    stopFan m =
      { m with
        gpio := { m.gpio with motor1 := false, motor2 := false, fanPwm := 0 }
        out := m.out ++ [Event.softPwmWrite FAN_PWM_PIN 0,
                         Event.printf (Msg.fanSpeedSet 0),
                         Event.digitalWrite MOTOR_PIN1 false,
                         Event.digitalWrite MOTOR_PIN2 false,
                         Event.printf Msg.fanStopped] } := by
  simp [stopFan, setFanSpeed_eq, digitalWrite, printf, MOTOR_PIN1, MOTOR_PIN2, LIGHT_PIN, LOW]

/-- C1: for every integer `level`, the value `setFanSpeed level` writes to the
fan PWM channel and reports in its message is `level` clamped to `[0,100]`: it
lies in `[0,100]`, is `0` below `0`, `100` above `100` and `level` itself in
between (so `150` gives `100` and `-5` gives `0`), and setting the applied
value again applies the same value. -/
theorem setFanSpeed_applies_clamped_level (level : Int) (m : Machine) :
    (setFanSpeed level m).gpio.fanPwm
        = (if level < 0 then 0 else if level > 100 then 100 else level)
    ∧ (setFanSpeed level m).out
        = m.out ++ [Event.softPwmWrite FAN_PWM_PIN (setFanSpeed level m).gpio.fanPwm,
                    Event.printf (Msg.fanSpeedSet (setFanSpeed level m).gpio.fanPwm)]
    ∧ 0 ≤ (setFanSpeed level m).gpio.fanPwm
    ∧ (setFanSpeed level m).gpio.fanPwm ≤ 100
    ∧ (setFanSpeed level m).gpio.fanPwm = max 0 (min 100 level)
    ∧ (setFanSpeed (setFanSpeed level m).gpio.fanPwm (setFanSpeed level m)).gpio.fanPwm
        = (setFanSpeed level m).gpio.fanPwm
    ∧ (setFanSpeed 150 m).gpio.fanPwm = 100
    ∧ (setFanSpeed (-5) m).gpio.fanPwm = 0 := by
  simp only [setFanSpeed_eq]
  refine ⟨?_, trivial, ?_, ?_, trivial, ?_, ?_, ?_⟩
  · show max 0 (min 100 level) = _
    split_ifs <;> omega
  · exact le_max_left _ _
  · show max 0 (min 100 level) ≤ 100
    omega
  · show max 0 (min 100 (max 0 (min 100 level))) = max 0 (min 100 level)
    omega
  · decide
  · decide

/-- C4: whatever the prior state, `stopFan` leaves the fan at level `0` with
both motor pins low (direction `Stopped`) and does not touch the light. -/
theorem stopFan_stops_fan_keeps_light (m : Machine) :
    (stopFan m).gpio.fanPwm = 0
    ∧ (stopFan m).gpio.motor1 = LOW
    ∧ (stopFan m).gpio.motor2 = LOW
    ∧ (stopFan m).gpio.direction = Direction.Stopped
    ∧ (stopFan m).gpio.light = m.gpio.light := by
  simp [stopFan_eq, Gpio.direction, LOW]

/-- C5: `stopFan` is idempotent: a second call leaves the actuator state (and
the rest of the program state) as the first call left it, and emits exactly
the events the first call emitted. -/
theorem stopFan_idempotent (m : Machine) :
    (stopFan (stopFan m)).gpio = (stopFan m).gpio
    ∧ (stopFan (stopFan m)).stdin = (stopFan m).stdin
    ∧ (stopFan (stopFan m)).choice = (stopFan m).choice
    ∧ (stopFan (stopFan m)).speed = (stopFan m).speed
    ∧ (stopFan (stopFan m)).randCalls = (stopFan m).randCalls
    ∧ (stopFan (stopFan m)).status = (stopFan m).status
    ∧ (stopFan m).out
        = m.out ++ [Event.softPwmWrite FAN_PWM_PIN 0,
                    Event.printf (Msg.fanSpeedSet 0),
                    Event.digitalWrite MOTOR_PIN1 LOW,
                    Event.digitalWrite MOTOR_PIN2 LOW,
                    Event.printf Msg.fanStopped]
    ∧ (stopFan (stopFan m)).out
        = (stopFan m).out ++ [Event.softPwmWrite FAN_PWM_PIN 0,
                    Event.printf (Msg.fanSpeedSet 0),
                    Event.digitalWrite MOTOR_PIN1 LOW,
                    Event.digitalWrite MOTOR_PIN2 LOW,
                    Event.printf Msg.fanStopped] := by
  simp [stopFan_eq, LOW]

end HomeAutomation

namespace HomeAutomation

/-! ## The floating-point model rounds correctly -/

theorem pow2_eq_zpow (e : Int) : pow2 e = (2 : ℚ) ^ e := by
  unfold pow2
  split_ifs with h
  · obtain ⟨n, rfl⟩ := Int.eq_ofNat_of_zero_le h
    simp
  · obtain ⟨n, hn⟩ : ∃ n : Nat, -e = n := ⟨(-e).toNat, by omega⟩
    have he : e = -(n : Int) := by omega
    subst he
    simp

theorem pow2_pos (e : Int) : 0 < pow2 e := by
  rw [pow2_eq_zpow]
  positivity

theorem pow2_add (a b : Int) : pow2 (a + b) = pow2 a * pow2 b := by
  simp only [pow2_eq_zpow]
  exact zpow_add₀ (by norm_num) a b

/-- The exponent chosen by `binade` is the binade of `q`:
`2 ^ binade q ≤ q < 2 ^ (binade q + 1)`. -/
theorem binade_spec (q : ℚ) (hq : 0 < q) :
    pow2 (binade q) ≤ q ∧ q < pow2 (binade q + 1) := by
  have hnum : 0 < q.num := Rat.num_pos.mpr hq
  have hden : 0 < q.den := q.den_pos
  obtain ⟨a, ha⟩ : ∃ a : Nat, q.num = a := ⟨q.num.toNat, by omega⟩
  have hapos : 0 < a := by omega
  have hqa : q = (a : ℚ) / (q.den : ℚ) := by
    have h := (Rat.num_div_den q).symm
    have hc : (q.num : ℚ) = (a : ℚ) := by rw [ha]; simp
    rw [hc] at h
    exact h
  have htn : q.num.toNat = a := by omega
  unfold binade
  rw [htn]
  generalize q.den = d at *
  have hdq : (0 : ℚ) < (d : ℚ) := by exact_mod_cast hden
  have haq : (0 : ℚ) < (a : ℚ) := by exact_mod_cast hapos
  by_cases h1 : 1 ≤ q
  · rw [if_pos h1]
    have hda : d ≤ a := by
      rw [hqa, le_div_iff₀ hdq] at h1
      have : (d : ℚ) ≤ a := by linarith
      exact_mod_cast this
    have hn : a / d ≠ 0 := by
      have := Nat.div_pos hda hden
      omega
    have hlo : 2 ^ (a / d).log2 * d ≤ a :=
      le_trans (Nat.mul_le_mul_right d (Nat.log2_self_le hn)) (Nat.div_mul_le_self a d)
    have hhi : a < 2 ^ ((a / d).log2 + 1) * d := by
      have h2 : a / d + 1 ≤ 2 ^ ((a / d).log2 + 1) := Nat.lt_log2_self
      have h3 : a < (a / d + 1) * d := by
        have := Nat.div_add_mod a d
        have := Nat.mod_lt a hden
        rw [Nat.add_mul, Nat.mul_comm (a / d) d]
        omega
      exact lt_of_lt_of_le h3 (Nat.mul_le_mul_right d h2)
    have e1 : (((a / d).log2 : Nat) : Int) + 1 = (((a / d).log2 + 1 : Nat) : Int) := by
      push_cast; ring
    rw [e1, pow2_eq_zpow, pow2_eq_zpow, zpow_natCast, zpow_natCast, hqa,
      le_div_iff₀ hdq, div_lt_iff₀ hdq]
    exact ⟨by exact_mod_cast hlo, by exact_mod_cast hhi⟩
  · rw [if_neg h1]
    have had : a < d := by
      have h2 : q < 1 := not_le.mp h1
      rw [hqa, div_lt_iff₀ hdq] at h2
      have : (a : ℚ) < d := by linarith
      exact_mod_cast this
    have hc2 : 2 ≤ (d + a - 1) / a := by
      rw [Nat.le_div_iff_mul_le hapos]
      omega
    have hmod := Nat.div_add_mod (d + a - 1) a
    have hmodlt := Nat.mod_lt (d + a - 1) hapos
    generalize (d + a - 1) / a = c at *
    have hc1 : ¬ c ≤ 1 := by omega
    simp only [hc1, if_false]
    have hceil : d ≤ a * c := by omega
    have hfloor : a * (c - 1) < d := by
      have : a * (c - 1) = a * c - a := by
        rw [Nat.mul_sub, Nat.mul_one]
      omega
    have hcne : c - 1 ≠ 0 := by omega
    have hlo := Nat.log2_self_le hcne
    have hhi := @Nat.lt_log2_self (c - 1)
    generalize (c - 1).log2 = l at *
    have hlow : d ≤ a * 2 ^ (l + 1) :=
      le_trans hceil (Nat.mul_le_mul_left a (by omega))
    have hupp : a * 2 ^ l < d :=
      lt_of_le_of_lt (Nat.mul_le_mul_left a hlo) hfloor
    have e1 : -(((l + 1 : Nat)) : Int) + 1 = -((l : Nat) : Int) := by
      push_cast; ring
    rw [e1, pow2_eq_zpow, pow2_eq_zpow, zpow_neg, zpow_neg, zpow_natCast, zpow_natCast, hqa]
    have hp1 : (0 : ℚ) < 2 ^ (l + 1) := by positivity
    have hp2 : (0 : ℚ) < 2 ^ l := by positivity
    constructor
    · rw [inv_eq_one_div, div_le_div_iff₀ hp1 hdq]
      have : ((d : Nat) : ℚ) ≤ ((a * 2 ^ (l + 1) : Nat) : ℚ) := by exact_mod_cast hlow
      push_cast at this
      linarith
    · rw [inv_eq_one_div, div_lt_div_iff₀ hdq hp2]
      have : ((a * 2 ^ l : Nat) : ℚ) < ((d : Nat) : ℚ) := by exact_mod_cast hupp
      push_cast at this
      linarith

/-- `roundHalfEven` lies between the floor and the floor plus one and is
within one half of its argument. -/
theorem roundHalfEven_spec (x : ℚ) :
    Rat.floor x ≤ roundHalfEven x ∧ roundHalfEven x ≤ Rat.floor x + 1
    ∧ |(roundHalfEven x : ℚ) - x| ≤ 1 / 2 := by
  have hle : ((Rat.floor x : Int) : ℚ) ≤ x := Rat.le_floor.mp le_rfl
  have hlt : x < ((Rat.floor x : Int) : ℚ) + 1 := by
    by_contra hcon
    have h1 : ((Rat.floor x + 1 : Int) : ℚ) ≤ x := by
      push_cast
      exact not_lt.mp hcon
    have := Rat.le_floor.mpr h1
    omega
  unfold roundHalfEven
  simp only []
  split_ifs with h1 h2 h3
  · refine ⟨le_rfl, by omega, ?_⟩
    rw [abs_le]; constructor <;> linarith
  · refine ⟨by omega, le_rfl, ?_⟩
    rw [abs_le]; push_cast; constructor <;> linarith
  · refine ⟨le_rfl, by omega, ?_⟩
    rw [abs_le]; constructor <;> linarith
  · refine ⟨by omega, le_rfl, ?_⟩
    rw [abs_le]; push_cast; constructor <;> linarith

/-- Correct rounding: for `q > 0` and precision `p ≥ 1`, `roundPos p q` is an
integer multiple `n * 2 ^ (e - (p - 1))` of the unit in the last place of the
binade `2 ^ e ≤ q < 2 ^ (e + 1)` of `q`, with a `p`-bit significand
`2 ^ (p - 1) ≤ n ≤ 2 ^ p`, and differs from `q` by at most half that unit. -/
theorem roundPos_spec (p : Nat) (hp : 1 ≤ p) (q : ℚ) (hq : 0 < q) :
    pow2 (binade q) ≤ q ∧ q < pow2 (binade q + 1)
    ∧ roundPos p q
        = (roundHalfEven (q / pow2 (binade q - (p - 1 : Nat))) : ℚ)
            * pow2 (binade q - (p - 1 : Nat))
    ∧ (2 : Int) ^ (p - 1) ≤ roundHalfEven (q / pow2 (binade q - (p - 1 : Nat)))
    ∧ roundHalfEven (q / pow2 (binade q - (p - 1 : Nat))) ≤ (2 : Int) ^ p
    ∧ |roundPos p q - q| ≤ pow2 (binade q - (p - 1 : Nat)) / 2 := by
  obtain ⟨hb1, hb2⟩ := binade_spec q hq
  have hu := pow2_pos (binade q - (p - 1 : Nat))
  obtain ⟨hr1, hr2, hr3⟩ := roundHalfEven_spec (q / pow2 (binade q - (p - 1 : Nat)))
  have hsplit1 : pow2 (binade q)
      = pow2 (binade q - (p - 1 : Nat)) * 2 ^ (p - 1) := by
    rw [← zpow_natCast, ← pow2_eq_zpow, ← pow2_add]
    congr 1; ring
  have hsplit2 : pow2 (binade q + 1)
      = pow2 (binade q - (p - 1 : Nat)) * 2 ^ p := by
    rw [← zpow_natCast (2 : ℚ) p, ← pow2_eq_zpow, ← pow2_add]
    congr 1
    have : ((p - 1 : Nat) : Int) = (p : Int) - 1 := by omega
    rw [this]; ring
  have hx1 : (2 : ℚ) ^ (p - 1) ≤ q / pow2 (binade q - (p - 1 : Nat)) := by
    rw [le_div_iff₀ hu]
    linarith
  have hx2 : q / pow2 (binade q - (p - 1 : Nat)) < (2 : ℚ) ^ p := by
    rw [div_lt_iff₀ hu]
    linarith
  refine ⟨hb1, hb2, rfl, ?_, ?_, ?_⟩
  · have h1 : (((2 : Int) ^ (p - 1) : Int) : ℚ) ≤ q / pow2 (binade q - (p - 1 : Nat)) := by
      push_cast; exact hx1
    exact le_trans (Rat.le_floor.mpr h1) hr1
  · have h2 : Rat.floor (q / pow2 (binade q - (p - 1 : Nat))) < (2 : Int) ^ p := by
      by_contra hcon
      have h3 := Rat.le_floor.mp (not_lt.mp hcon)
      push_cast at h3
      linarith
    omega
  · have he : roundPos p q - q
        = ((roundHalfEven (q / pow2 (binade q - (p - 1 : Nat))) : ℚ)
            - q / pow2 (binade q - (p - 1 : Nat))) * pow2 (binade q - (p - 1 : Nat)) := by
      unfold roundPos
      simp only []
      rw [sub_mul, div_mul_cancel₀ _ (ne_of_gt hu)]
    rw [he, abs_mul, abs_of_pos hu]
    calc |_| * pow2 (binade q - (p - 1 : Nat))
        ≤ 1 / 2 * pow2 (binade q - (p - 1 : Nat)) :=
          mul_le_mul_of_nonneg_right hr3 hu.le
      _ = pow2 (binade q - (p - 1 : Nat)) / 2 := by ring

/-- The threshold `30` is a `float`. -/
theorem toFloat_threshold : toFloat (TEMP_THRESHOLD : ℚ) = 30 := by decide!

/-- The value of the return expression of `readTemperature` for each residue
`rand() % 100`: it is the `float` nearest to `25 + k/10`, within `2^-19` of it,
equal to it exactly when `k` is a multiple of 5, and lies in `[25, 35)`. -/
theorem temperature_table :
    ∀ k, k < 100 →
      (25 ≤ toFloat (toDouble (25 + toDouble (toDouble ((k % 100 : Nat) : ℚ) / 10)))
      ∧ toFloat (toDouble (25 + toDouble (toDouble ((k % 100 : Nat) : ℚ) / 10))) < 35
      ∧ toFloat (toDouble (25 + toDouble (toDouble ((k % 100 : Nat) : ℚ) / 10)))
          = toFloat (25 + ((k % 100 : Nat) : ℚ) / 10)
      ∧ |toFloat (toDouble (25 + toDouble (toDouble ((k % 100 : Nat) : ℚ) / 10)))
          - (25 + ((k % 100 : Nat) : ℚ) / 10)| ≤ 1 / 2 ^ 19
      ∧ (toFloat (toDouble (25 + toDouble (toDouble ((k % 100 : Nat) : ℚ) / 10)))
          = 25 + ((k % 100 : Nat) : ℚ) / 10 ↔ k % 100 % 5 = 0)) := by
  decide!

theorem readTemperature_fst (env : Env) (m : Machine) :
    (readTemperature env m).1
      = toFloat (toDouble (25 + toDouble (toDouble
          (((env.rng m.randCalls) % 100 : Nat) : ℚ) / 10))) := rfl

theorem readTemperature_snd (env : Env) (m : Machine) :
    (readTemperature env m).2 = { m with randCalls := m.randCalls + 1 } := rfl

/-! ## Sanity checks of the floating-point model against IEEE 754 -/

/-- The `float` nearest to 0.1 is `0x3DCCCCCD`, that is `13421773 * 2^-27`, and
the `double` nearest to 0.1 is `0x3FB999999999999A`, that is
`3602879701896397 * 2^-55`. -/
theorem tenth_rounds_as_ieee :
    toFloat (1 / 10) = 13421773 / 2 ^ 27
    ∧ toDouble (1 / 10) = 3602879701896397 / 2 ^ 55 := by
  decide!

/-- Readings for `rand() % 100` equal to 1, 50, 75 and 99: the `float`s
`0x41C8CCCD` (25.1 rounded), 30.0, 32.5 and `0x420B999A` (34.9 rounded). -/
theorem readTemperature_examples (m : Machine) :
    (readTemperature (healthyEnv 1) m).1 = 13159629 / 2 ^ 19
    ∧ (readTemperature (healthyEnv 50) m).1 = 30
    ∧ (readTemperature (healthyEnv 75) m).1 = 65 / 2
    ∧ (readTemperature (healthyEnv 99) m).1 = 4574413 / 2 ^ 17
    ∧ (readTemperature (healthyEnv 30) m).1 = 28 := by
  simp only [readTemperature_fst, healthyEnv]
  decide!

theorem readTemperature_bounds (env : Env) (m : Machine) :
    25 ≤ (readTemperature env m).1 ∧ (readTemperature env m).1 < 35 := by
  have h := temperature_table (env.rng m.randCalls % 100) (Nat.mod_lt _ (by decide))
  rw [Nat.mod_mod] at h
  rw [readTemperature_fst]
  exact ⟨h.1, h.2.1⟩

theorem samples_bounds (env : Env) (n : Nat) :
    ∀ m : Machine, ∀ v ∈ samples env n m, 25 ≤ v ∧ v < 35 := by
  induction n with
  | zero => intro m v hv; simp [samples] at hv
  | succ n ih =>
    intro m v hv
    simp only [samples, List.mem_cons] at hv
    rcases hv with rfl | hv
    · exact readTemperature_bounds env m
    · exact ih _ v hv

/-- C6 (as amended): whatever value `r` the generator returns,
`readTemperature` returns the `float` nearest to `25 + (r mod 100)/10` (the C
expression `25.0 + (rand() % 100) / 10.0` computed in `double` and converted
to `float`).  That value equals `25 + (r mod 100)/10` exactly when `r mod 100`
is a multiple of 5, is within `2^-19` of it in every case, and satisfies
`25 ≤ value < 35`; hence any number of successive samples (1000, say) all lie
in `[25, 35)`. -/
theorem readTemperature_range (env : Env) (m : Machine) :
    25 ≤ (readTemperature env m).1
    ∧ (readTemperature env m).1 < 35
    ∧ (readTemperature env m).1
        = toFloat (25 + ((env.rng m.randCalls % 100 : Nat) : ℚ) / 10)
    ∧ |(readTemperature env m).1 - (25 + ((env.rng m.randCalls % 100 : Nat) : ℚ) / 10)|
        ≤ 1 / 2 ^ 19
    ∧ ((readTemperature env m).1 = 25 + ((env.rng m.randCalls % 100 : Nat) : ℚ) / 10
        ↔ env.rng m.randCalls % 100 % 5 = 0)
    ∧ (samples env 1000 m).length = 1000
    ∧ (∀ n, ∀ v ∈ samples env n m, 25 ≤ v ∧ v < 35) := by
  have h := temperature_table (env.rng m.randCalls % 100) (Nat.mod_lt _ (by decide))
  rw [Nat.mod_mod] at h
  rw [readTemperature_fst]
  refine ⟨h.1, h.2.1, h.2.2.1, h.2.2.2.1, h.2.2.2.2, ?_, fun n => samples_bounds env n m⟩
  have hl : ∀ n (m : Machine), (samples env n m).length = n := by
    intro n
    induction n with
    | zero => intro m; rfl
    | succ n ih => intro m; simp [samples, ih]
  exact hl 1000 m

/-- C6, the claim as stated fails: when `rand()` returns 1 the value returned
is the `float` `13159629 * 2^-19` (25.1000003814697265625), not
`25 + (1 mod 100)/10 = 25.1`, which no `float` equals. -/
theorem readTemperature_not_exact :
    (readTemperature (healthyEnv 1) (boot busyGpio [])).1 = 13159629 / 2 ^ 19
    ∧ (readTemperature (healthyEnv 1) (boot busyGpio [])).1
        ≠ 25 + ((1 % 100 : Nat) : ℚ) / 10
    ∧ (readTemperature (healthyEnv 1) (boot busyGpio [])).1
        - (25 + ((1 % 100 : Nat) : ℚ) / 10) = 1 / 2621440 := by
  decide!

end HomeAutomation

namespace HomeAutomation

/-- Unfolding of `startFanForward`. -/
theorem startFanForward_eq (speed : Int) (m : Machine) :
    startFanForward speed m =
      { m with
        gpio := { m.gpio with motor1 := true, motor2 := false,
                              fanPwm := max 0 (min 100 speed) }
        out := m.out ++ [Event.digitalWrite MOTOR_PIN1 true,
                         Event.digitalWrite MOTOR_PIN2 false,
                         Event.softPwmWrite FAN_PWM_PIN (max 0 (min 100 speed)),
                         Event.printf (Msg.fanSpeedSet (max 0 (min 100 speed))),
                         Event.printf Msg.fanStartedForward] } := by
  simp [startFanForward, setFanSpeed_eq, digitalWrite, printf, MOTOR_PIN1, MOTOR_PIN2,
    LIGHT_PIN, LOW, HIGH]

/-- Unfolding of `lightOff`. -/
theorem lightOff_eq (m : Machine) :
    lightOff m =
      { m with
        gpio := { m.gpio with light := false }
        out := m.out ++ [Event.digitalWrite LIGHT_PIN false,
                         Event.printf Msg.lightTurnedOff] } := by
  simp [lightOff, digitalWrite, printf, LIGHT_PIN, LOW]

/-- Unfolding of `lightOn`. -/
theorem lightOn_eq (m : Machine) :
    lightOn m =
      { m with
        gpio := { m.gpio with light := true }
        out := m.out ++ [Event.digitalWrite LIGHT_PIN true,
                         Event.printf Msg.lightTurnedOn] } := by
  simp [lightOn, digitalWrite, printf, LIGHT_PIN, HIGH]

/-- The on branch of the threshold comparison. -/
theorem autoFanControl_on (t : ℚ) (ht : t > 30) (m : Machine) :
    autoFanControl t m =
      startFanForward 75 (printf Msg.exceedsThreshold
        (printf (Msg.currentTemperature t) m)) := by
  simp [autoFanControl, toFloat_threshold, ht]

/-- The off branch of the threshold comparison. -/
theorem autoFanControl_off (t : ℚ) (ht : t ≤ 30) (m : Machine) :
    autoFanControl t m =
      stopFan (printf Msg.belowThreshold
        (printf (Msg.currentTemperature t) m)) := by
  simp [autoFanControl, toFloat_threshold, not_lt.mpr ht]

/-- Menu option 5 runs `autoFanControl` on a fresh reading, then delays. -/
theorem loopBody_choice5 (env : Env) (m : Machine) (rest : List Int)
    (hrun : m.status = Status.running) (hchoice : m.stdin = 5 :: rest) :
    loopBody env m =
      delay 500 (autoFanControl (readTemperature env m).1
        { m with stdin := rest, choice := 5, randCalls := m.randCalls + 1,
                 out := m.out ++ [Event.printf Msg.menu] }) := by
  simp [loopBody, hrun, hchoice, printf, scanfChoice, readTemperature, rand]

/-- Menu option 6 stops the fan, switches the light off and exits. -/
theorem loopBody_choice6 (env : Env) (m : Machine) (rest : List Int)
    (hrun : m.status = Status.running) (hchoice : m.stdin = 6 :: rest) :
    loopBody env m =
      exit 0 (lightOff (stopFan (printf Msg.exiting
        { m with stdin := rest, choice := 6,
                 out := m.out ++ [Event.printf Msg.menu] }))) := by
  simp [loopBody, hrun, hchoice, printf, scanfChoice]

/-- C2: for every prior state, when menu option 5 is chosen and the
temperature read is strictly greater than the threshold 30, the fan is driven
forward (`MOTOR_PIN1` high, `MOTOR_PIN2` low) at level 75 and the light is
left alone; the decision itself (`autoFanControl`) does so for every value
above 30, whatever the state. -/
theorem autoFan_on_above_threshold (env : Env) (m : Machine) (rest : List Int)
    (hrun : m.status = Status.running) (hchoice : m.stdin = 5 :: rest)
    (hot : (readTemperature env m).1 > 30) :
    (loopBody env m).gpio.motor1 = HIGH
    ∧ (loopBody env m).gpio.motor2 = LOW
    ∧ (loopBody env m).gpio.direction = Direction.Forward
    ∧ (loopBody env m).gpio.fanPwm = 75
    ∧ (loopBody env m).gpio.light = m.gpio.light
    ∧ (loopBody env m).status = Status.running
    ∧ (∀ (t : ℚ) (s : Machine), t > 30 →
        (autoFanControl t s).gpio
          = { s.gpio with motor1 := HIGH, motor2 := LOW, fanPwm := 75 }) := by
  rw [loopBody_choice5 env m rest hrun hchoice, autoFanControl_on _ hot]
  refine ⟨?_, ?_, ?_, ?_, ?_, ?_, ?_⟩
  · simp [startFanForward_eq, delay, printf, HIGH]
  · simp [startFanForward_eq, delay, printf, LOW]
  · simp [startFanForward_eq, delay, printf, Gpio.direction]
  · simp [startFanForward_eq, delay, printf]
  · simp [startFanForward_eq, delay, printf]
  · simp [startFanForward_eq, delay, printf, hrun]
  · intro t s ht
    rw [autoFanControl_on t ht]
    simp [startFanForward_eq, printf, HIGH, LOW]

/-- C3: for every prior state, when menu option 5 is chosen and the
temperature read is at most the threshold 30 (equality included), the fan is
stopped (both motor pins low) at level 0 and the light is left alone; the
decision itself (`autoFanControl`) does so for every value up to 30, whatever
the state. -/
theorem autoFan_off_at_or_below_threshold (env : Env) (m : Machine) (rest : List Int)
    (hrun : m.status = Status.running) (hchoice : m.stdin = 5 :: rest)
    (hcold : (readTemperature env m).1 ≤ 30) :
    (loopBody env m).gpio.motor1 = LOW
    ∧ (loopBody env m).gpio.motor2 = LOW
    ∧ (loopBody env m).gpio.direction = Direction.Stopped
    ∧ (loopBody env m).gpio.fanPwm = 0
    ∧ (loopBody env m).gpio.light = m.gpio.light
    ∧ (loopBody env m).status = Status.running
    ∧ (∀ (t : ℚ) (s : Machine), t ≤ 30 →
        (autoFanControl t s).gpio
          = { s.gpio with motor1 := LOW, motor2 := LOW, fanPwm := 0 }) := by
  rw [loopBody_choice5 env m rest hrun hchoice, autoFanControl_off _ hcold]
  refine ⟨?_, ?_, ?_, ?_, ?_, ?_, ?_⟩
  · simp [stopFan_eq, delay, printf, LOW]
  · simp [stopFan_eq, delay, printf, LOW]
  · simp [stopFan_eq, delay, printf, Gpio.direction]
  · simp [stopFan_eq, delay, printf]
  · simp [stopFan_eq, delay, printf]
  · simp [stopFan_eq, delay, printf, hrun]
  · intro t s ht
    rw [autoFanControl_off t ht]
    simp [stopFan_eq, printf, LOW]

/-- C9: for every prior state, menu option 6 leaves the fan at level 0 with
both motor pins low and the light off, and the process has exited with status
0; and when both initialisation calls succeed, `setupGPIO` leaves the light
off, both motor pins low and level 0, whatever the state at power-up. -/
theorem exit_and_setup_switch_everything_off (env : Env) (m : Machine) (rest : List Int)
    (g : Gpio) (input : List Int)
    (hrun : m.status = Status.running) (hchoice : m.stdin = 6 :: rest)
    (hwiring : env.wiringPiSetup ≠ -1) (hpwm : env.softPwmCreate = 0) :
    (loopBody env m).gpio = Gpio.allOff
    ∧ (loopBody env m).gpio.direction = Direction.Stopped
    ∧ (loopBody env m).status = Status.exited 0
    ∧ ( setupGPIO env (boot g input)).gpio = Gpio.allOff
    ∧ ( setupGPIO env (boot g input)).gpio.direction = Direction.Stopped
    ∧ ( setupGPIO env (boot g input)).status = Status.running := by
  rw [loopBody_choice6 env m rest hrun hchoice]
  refine ⟨?_, ?_, ?_, ?_, ?_, ?_⟩
  · simp [exit, lightOff_eq, stopFan_eq, printf, Gpio.allOff]
  · simp [exit, lightOff_eq, stopFan_eq, printf, Gpio.direction]
  · simp [exit]
  · simp [ setupGPIO, hwiring, hpwm, digitalWrite, softPwmWrite, pinMode, boot, Gpio.allOff,
      LIGHT_PIN, MOTOR_PIN1, MOTOR_PIN2, FAN_PWM_PIN, LOW]
  · simp [ setupGPIO, hwiring, hpwm, digitalWrite, softPwmWrite, pinMode, boot, Gpio.direction,
      LIGHT_PIN, MOTOR_PIN1, MOTOR_PIN2, FAN_PWM_PIN, LOW]
  · simp [ setupGPIO, hwiring, hpwm, digitalWrite, softPwmWrite, pinMode, boot]

end HomeAutomation

namespace HomeAutomation

/-- Appending an admissible event keeps the trace part of the invariant. -/
theorem levelOk_append (out : List Event) (es : List Event)
    (h : ∀ e ∈ out, e.levelOk) (hes : ∀ e ∈ es, e.levelOk) :
    ∀ e ∈ out ++ es, e.levelOk := by
  intro e he
  rcases List.mem_append.mp he with h1 | h1
  · exact h e h1
  · exact hes e h1

/-- Emitting admissible events without touching the PWM level keeps the
level invariant. -/
theorem levelInv_of_same_level (m m1 : Machine) (es : List Event) (h : m.levelInv)
    (hlevel : m1.gpio.fanPwm = m.gpio.fanPwm) (hout : m1.out = m.out ++ es)
    (hes : ∀ e ∈ es, e.levelOk) : m1.levelInv := by
  refine ⟨by rw [hlevel]; exact h.1, ?_⟩
  rw [hout]
  exact levelOk_append _ _ h.2 hes

theorem printf_levelInv (msg : Msg) (m : Machine) (h : m.levelInv)
    (hmsg : (Event.printf msg).levelOk) : (printf msg m).levelInv :=
  levelInv_of_same_level m _ [Event.printf msg] h rfl rfl (by simpa using hmsg)

theorem delay_levelInv (ms : Nat) (m : Machine) (h : m.levelInv) :
    (delay ms m).levelInv :=
  levelInv_of_same_level m _ [Event.delay ms] h rfl rfl (by simp [Event.levelOk])

theorem exit_levelInv (code : Int) (m : Machine) (h : m.levelInv) :
    (exit code m).levelInv := h

/-- A `scanf` into `choice` changes neither the level nor the trace, whether
or not it stores a value. -/
theorem scanfChoice_levelInv (m : Machine) (h : m.levelInv) :
    (scanfChoice m).levelInv := by
  unfold scanfChoice
  split
  · exact h
  · exact h

/-- A `scanf` into `speed` changes neither the level nor the trace, whether
or not it stores a value. -/
theorem scanfSpeed_levelInv (m : Machine) (h : m.levelInv) :
    (scanfSpeed m).levelInv := by
  unfold scanfSpeed
  split
  · exact h
  · exact h

theorem lightOn_levelInv (m : Machine) (h : m.levelInv) : (lightOn m).levelInv := by
  rw [lightOn_eq]
  exact levelInv_of_same_level m _ _ h rfl rfl (by simp [Event.levelOk])

theorem lightOff_levelInv (m : Machine) (h : m.levelInv) : (lightOff m).levelInv := by
  rw [lightOff_eq]
  exact levelInv_of_same_level m _ _ h rfl rfl (by simp [Event.levelOk])

/-- Whatever value `setFanSpeed` is given, stale or fresh, the level it
applies and reports is admissible. -/
theorem setFanSpeed_levelInv (speed : Int) (m : Machine) (h : m.levelInv) :
    (setFanSpeed speed m).levelInv := by
  have hclamp : levelInRange (max 0 (min 100 speed)) := by
    unfold levelInRange
    omega
  rw [setFanSpeed_eq]
  exact ⟨hclamp, levelOk_append _ _ h.2 (by simp [Event.levelOk, hclamp])⟩

theorem stopFan_levelInv (m : Machine) (h : m.levelInv) : (stopFan m).levelInv := by
  rw [stopFan_eq]
  exact ⟨by simp [levelInRange],
    levelOk_append _ _ h.2 (by simp [Event.levelOk, levelInRange])⟩

theorem startFanForward_levelInv (speed : Int) (m : Machine) (h : m.levelInv) :
    (startFanForward speed m).levelInv := by
  have hclamp : levelInRange (max 0 (min 100 speed)) := by
    unfold levelInRange
    omega
  rw [startFanForward_eq]
  exact ⟨hclamp, levelOk_append _ _ h.2 (by simp [Event.levelOk, hclamp])⟩

theorem autoFanControl_levelInv (t : ℚ) (m : Machine) (h : m.levelInv) :
    (autoFanControl t m).levelInv := by
  have h1 := printf_levelInv (Msg.currentTemperature t) m h (by simp [Event.levelOk])
  unfold autoFanControl
  simp only []
  split_ifs
  · exact startFanForward_levelInv _ _ (printf_levelInv _ _ h1 (by simp [Event.levelOk]))
  · exact stopFan_levelInv _ (printf_levelInv _ _ h1 (by simp [Event.levelOk]))

theorem readTemperature_levelInv (env : Env) (m : Machine) (h : m.levelInv) :
    (readTemperature env m).2.levelInv := h

/-- One pass through the menu loop preserves the level invariant, also when a
`scanf` stores nothing and the pass runs on the stale `choice` or `speed`. -/
theorem loopBody_levelInv (env : Env) (m : Machine) (h : m.levelInv) :
    (loopBody env m).levelInv := by
  rcases hst : m.status with _ | code
  · have h1 : (scanfChoice (printf Msg.menu m)).levelInv :=
      scanfChoice_levelInv _ (printf_levelInv _ _ h (by simp [Event.levelOk]))
    simp only [loopBody, hst]
    generalize scanfChoice (printf Msg.menu m) = m1 at h1 ⊢
    split_ifs
    · exact delay_levelInv _ _ (lightOn_levelInv _ h1)
    · exact delay_levelInv _ _ (lightOff_levelInv _ h1)
    · exact delay_levelInv _ _ (setFanSpeed_levelInv _ _
        (scanfSpeed_levelInv _ (printf_levelInv _ _ h1 (by simp [Event.levelOk]))))
    · exact delay_levelInv _ _ (printf_levelInv _ _
        (readTemperature_levelInv env m1 h1) (by simp [Event.levelOk]))
    · exact delay_levelInv _ _ (autoFanControl_levelInv _ _
        (readTemperature_levelInv env m1 h1))
    · exact exit_levelInv _ _ (lightOff_levelInv _ (stopFan_levelInv _
        (printf_levelInv _ _ h1 (by simp [Event.levelOk]))))
    · exact delay_levelInv _ _ (printf_levelInv _ _ h1 (by simp [Event.levelOk]))
  · simp only [loopBody, hst]
    exact h

/-- Any number of passes through the menu loop preserves the level
invariant. -/
theorem whileLoop_levelInv (env : Env) (n : Nat) :
    ∀ m : Machine, m.levelInv → (whileLoop env n m).levelInv := by
  induction n with
  | zero => intro m h; exact h
  | succ n ih => intro m h; exact ih _ (loopBody_levelInv env m h)

/-- After a successful `setupGPIO` on a process that has printed nothing yet
the level invariant holds with level 0. -/
theorem setupGPIO_levelInv (env : Env) (m : Machine)
    (hwiring : env.wiringPiSetup ≠ -1) (hpwm : env.softPwmCreate = 0)
    (hout : m.out = []) (hrun : m.status = Status.running) :
    ( setupGPIO env m).levelInv
    ∧ ( setupGPIO env m).gpio.fanPwm = 0
    ∧ ( setupGPIO env m).status = Status.running := by
  simp [ setupGPIO, hwiring, hpwm, hout, hrun, digitalWrite, softPwmWrite, pinMode,
    Machine.levelInv, Event.levelOk, levelInRange, LIGHT_PIN, MOTOR_PIN1, MOTOR_PIN2,
    FAN_PWM_PIN]

/-- C7: level invariant of the home automation program.  After a successful
`setupGPIO` the level is 0, and for every sequence of typed integers (menu
choices and fan speeds), every generator sequence (sampled temperatures) and
every number `n` of passes through the menu loop, the level applied to the fan
PWM lies in `[0,100]`, and so does every value ever written to the fan PWM or
reported as the fan speed.  The runs covered include those in which a `scanf`
stores nothing (the typed input ends or is not a number), so that the pass
runs on the previous `choice` or `speed`, and those in which these locals
still hold their indeterminate initial values. -/
theorem level_invariant (env : Env) (g : Gpio) (input : List Int) (n : Nat)
    (hwiring : env.wiringPiSetup ≠ -1) (hpwm : env.softPwmCreate = 0) :
    (main env g input 0).gpio.fanPwm = 0
    ∧ 0 ≤ (main env g input n).gpio.fanPwm
    ∧ (main env g input n).gpio.fanPwm ≤ 100
    ∧ (∀ pin value, Event.softPwmWrite pin value ∈ (main env g input n).out →
        0 ≤ value ∧ value ≤ 100)
    ∧ (∀ speed, Event.printf (Msg.fanSpeedSet speed) ∈ (main env g input n).out →
        0 ≤ speed ∧ speed ≤ 100) := by
  obtain ⟨hinv, hzero, hrun⟩ :=
    setupGPIO_levelInv env { boot g input with choice := env.choice, speed := env.speed }
      hwiring hpwm rfl rfl
  have hbanner := printf_levelInv Msg.banner _ hinv (by simp [Event.levelOk])
  have hmain : ∀ k, main env g input k
      = whileLoop env k (printf Msg.banner
          ( setupGPIO env { boot g input with choice := env.choice, speed := env.speed })) := by
    intro k
    simp only [main, hrun]
  have hall := whileLoop_levelInv env n _ hbanner
  rw [← hmain n] at hall
  refine ⟨?_, hall.1.1, hall.1.2, ?_, ?_⟩
  · rw [hmain 0]
    simpa [whileLoop, printf] using hzero
  · intro pin value hmem
    exact hall.2 _ hmem
  · intro speed hmem
    exact hall.2 _ hmem

/-- A `scanf` that stores nothing does not stop the loop.  With the single
typed integer 1, the second pass runs `lightOn` again on the stale `choice`;
with the single typed integer 3 and nothing after it, `setFanSpeed` is called
with the indeterminate `speed` (here `INT_MAX`) and applies 100. -/
theorem stale_locals_are_used :
    (main (healthyEnv 0) busyGpio [1] 2).out.count (Event.printf Msg.lightTurnedOn) = 2
    ∧ (main (healthyEnv 0) busyGpio [1] 2).status = Status.running
    ∧ (main (healthyEnv 0) busyGpio [3] 1).speed = 2147483647
    ∧ (main (healthyEnv 0) busyGpio [3] 1).gpio.fanPwm = 100
    ∧ (main (healthyEnv 0) busyGpio [] 1).choice = 3
    ∧ (main (healthyEnv 0) busyGpio [] 1).gpio.fanPwm = 100 := by
  decide

end HomeAutomation

namespace MotorControl

/-- C8 (as amended): `setMotorSpeed` does not clamp.  For every duty cycle
outside `[0,100]` it prints the invalid-duty-cycle error and nothing else, so
no speed is reported for the motor; for every duty cycle inside `[0,100]` it
reports exactly that duty cycle. -/
theorem setMotorSpeed_rejects_out_of_range (dutyCycle : Int) (t : Trace)
    (hout : dutyCycle < 0 ∨ dutyCycle > 100) :
    setMotorSpeed dutyCycle t = t ++ [Event.printf Msg.invalidDutyCycle]
    ∧ (∀ d : Int, 0 ≤ d → d ≤ 100 →
        setMotorSpeed d t = t ++ [Event.printf (Msg.motorRunning d)]) := by
  constructor
  · have hneg : ¬ (dutyCycle ≥ 0 ∧ dutyCycle ≤ 100) := by omega
    simp only [setMotorSpeed, hneg, if_false, printf]
  · intro d h0 h100
    have hpos : d ≥ 0 ∧ d ≤ 100 := ⟨h0, h100⟩
    simp only [setMotorSpeed, hpos, and_self, if_true, printf]

/-- C8, the claim as stated fails: for the duty cycle 150 `setMotorSpeed`
prints the error and does not report the motor running at the clamped value
100 (nor, for -5, at 0). -/
theorem setMotorSpeed_does_not_clamp :
    setMotorSpeed 150 [] = [Event.printf Msg.invalidDutyCycle]
    ∧ setMotorSpeed 150 [] ≠ [Event.printf (Msg.motorRunning 100)]
    ∧ setMotorSpeed (-5) [] = [Event.printf Msg.invalidDutyCycle]
    ∧ setMotorSpeed (-5) [] ≠ [Event.printf (Msg.motorRunning 0)] := by
  decide

end MotorControl

namespace MotorControl

/-- The increasing loop started at 0 calls `setMotorSpeed` then `sleep(1)` for
0, 10, .., 100 in this order, and stops. -/
theorem rampUp_zero (t : Trace) :
    rampUp 0 t
      = [0, 10, 20, 30, 40, 50, 60, 70, 80, 90, 100].foldl
          (fun t d => sleep 1 (setMotorSpeed d t)) t := by
  simp [rampUp]

/-- The decreasing loop started at 100 calls `setMotorSpeed` then `sleep(1)`
for 100, 90, .., 0 in this order, and stops. -/
theorem rampDown_hundred (t : Trace) :
    rampDown 100 t
      = [100, 90, 80, 70, 60, 50, 40, 30, 20, 10, 0].foldl
          (fun t d => sleep 1 (setMotorSpeed d t)) t := by
  simp [rampDown]

/-- C10: the motor ramp demo terminates with return value 0 and never takes
the error branch of `setMotorSpeed` or `setMotorDirection`.  After the banner
it sets the direction with the valid value 1 (Forward), calls `setMotorSpeed`
for exactly 0, 10, .., 100 (11 calls), sets the direction with the valid value
0 (Backward), calls `setMotorSpeed` for exactly 100, 90, .., 0 (11 calls) and
calls `stopMotor` once, last; all 22 duty cycles lie in `[0,100]`, each call
reports its own duty cycle, and no error line is printed. -/
theorem main_ramp_demo :
    main.1
      = stopMotor
          ([100, 90, 80, 70, 60, 50, 40, 30, 20, 10, 0].foldl
            (fun t d => sleep 1 (setMotorSpeed d t))
            (setMotorDirection 0
              ([0, 10, 20, 30, 40, 50, 60, 70, 80, 90, 100].foldl
                (fun t d => sleep 1 (setMotorSpeed d t))
                (setMotorDirection 1 (printf Msg.banner [])))))
    ∧ main.1
      = [Event.printf Msg.banner, Event.printf Msg.directionForward]
        ++ [0, 10, 20, 30, 40, 50, 60, 70, 80, 90, 100].flatMap
            (fun d => [Event.printf (Msg.motorRunning d), Event.sleep 1])
        ++ [Event.printf Msg.directionBackward]
        ++ [100, 90, 80, 70, 60, 50, 40, 30, 20, 10, 0].flatMap
            (fun d => [Event.printf (Msg.motorRunning d), Event.sleep 1])
        ++ [Event.printf Msg.motorStopped]
    ∧ main.2 = 0
    ∧ ([0, 10, 20, 30, 40, 50, 60, 70, 80, 90, 100] : List Int).length = 11
    ∧ ([100, 90, 80, 70, 60, 50, 40, 30, 20, 10, 0] : List Int).length = 11
    ∧ (∀ d ∈ ([0, 10, 20, 30, 40, 50, 60, 70, 80, 90, 100] : List Int)
              ++ [100, 90, 80, 70, 60, 50, 40, 30, 20, 10, 0], 0 ≤ d ∧ d ≤ 100)
    ∧ Event.printf Msg.invalidDutyCycle ∉ main.1
    ∧ Event.printf Msg.invalidDirection ∉ main.1
    ∧ main.1.count (Event.printf Msg.motorStopped) = 1
    ∧ main.1.getLast? = some (Event.printf Msg.motorStopped) := by
  have hstruct : main.1
      = stopMotor
          ([100, 90, 80, 70, 60, 50, 40, 30, 20, 10, 0].foldl
            (fun t d => sleep 1 (setMotorSpeed d t))
            (setMotorDirection 0
              ([0, 10, 20, 30, 40, 50, 60, 70, 80, 90, 100].foldl
                (fun t d => sleep 1 (setMotorSpeed d t))
                (setMotorDirection 1 (printf Msg.banner []))))) := by
    simp only [main, rampUp_zero, rampDown_hundred, GPIO_PIN_MOTOR_FORWARD,
      GPIO_PIN_MOTOR_BACKWARD]
  have hexplicit : stopMotor
          ([100, 90, 80, 70, 60, 50, 40, 30, 20, 10, 0].foldl
            (fun t d => sleep 1 (setMotorSpeed d t))
            (setMotorDirection 0
              ([0, 10, 20, 30, 40, 50, 60, 70, 80, 90, 100].foldl
                (fun t d => sleep 1 (setMotorSpeed d t))
                (setMotorDirection 1 (printf Msg.banner [])))))
      = [Event.printf Msg.banner, Event.printf Msg.directionForward]
        ++ [0, 10, 20, 30, 40, 50, 60, 70, 80, 90, 100].flatMap
            (fun d => [Event.printf (Msg.motorRunning d), Event.sleep 1])
        ++ [Event.printf Msg.directionBackward]
        ++ [100, 90, 80, 70, 60, 50, 40, 30, 20, 10, 0].flatMap
            (fun d => [Event.printf (Msg.motorRunning d), Event.sleep 1])
        ++ [Event.printf Msg.motorStopped] := by
    decide
  refine ⟨hstruct, hstruct.trans hexplicit, rfl, rfl, rfl, by decide, ?_, ?_, ?_, ?_⟩
  · rw [hstruct, hexplicit]; decide
  · rw [hstruct, hexplicit]; decide
  · rw [hstruct, hexplicit]; decide
  · rw [hstruct, hexplicit]; decide

/-- C8, instance: the duty cycle 150 is out of range and is rejected, not
clamped. -/
theorem setMotorSpeed_rejects_out_of_range_witness :
    ((150 : Int) < 0 ∨ (150 : Int) > 100)
    ∧ setMotorSpeed 150 [] = [Event.printf Msg.invalidDutyCycle] :=
  ⟨Or.inr (by decide),
    (setMotorSpeed_rejects_out_of_range 150 [] (Or.inr (by decide))).1⟩

end MotorControl

namespace HomeAutomation

/-- C2, instance: with the light on and the fan running backwards at 40, a
reading of 32.5 (`rand() % 100 = 75`) on menu option 5 drives the fan forward at
level 75. -/
theorem autoFan_on_above_threshold_witness :
    (readTemperature (healthyEnv 75) (boot busyGpio [5])).1 = 65 / 2
    ∧ (readTemperature (healthyEnv 75) (boot busyGpio [5])).1 > 30
    ∧ (loopBody (healthyEnv 75) (boot busyGpio [5])).gpio.direction = Direction.Forward
    ∧ (loopBody (healthyEnv 75) (boot busyGpio [5])).gpio.fanPwm = 75 :=
  ⟨by decide!, by decide!,
    (autoFan_on_above_threshold (healthyEnv 75) (boot busyGpio [5]) [] rfl rfl
      (by decide!)).2.2.1,
    (autoFan_on_above_threshold (healthyEnv 75) (boot busyGpio [5]) [] rfl rfl
      (by decide!)).2.2.2.1⟩

/-- C3, instance: with the light on and the fan running backwards at 40, a
reading of exactly 30.0 (`rand() % 100 = 50`) on menu option 5 stops the
fan. -/
theorem autoFan_off_at_or_below_threshold_witness :
    (readTemperature (healthyEnv 50) (boot busyGpio [5])).1 = 30
    ∧ (readTemperature (healthyEnv 50) (boot busyGpio [5])).1 ≤ 30
    ∧ (loopBody (healthyEnv 50) (boot busyGpio [5])).gpio.direction = Direction.Stopped
    ∧ (loopBody (healthyEnv 50) (boot busyGpio [5])).gpio.fanPwm = 0 :=
  ⟨by decide!, by decide!,
    (autoFan_off_at_or_below_threshold (healthyEnv 50) (boot busyGpio [5]) [] rfl rfl
      (by decide!)).2.2.1,
    (autoFan_off_at_or_below_threshold (healthyEnv 50) (boot busyGpio [5]) [] rfl rfl
      (by decide!)).2.2.2.1⟩

/-- C9, instance: from the state with the light on and the fan running
backwards at 40, menu option 6 switches everything off and exits, and a
successful `setupGPIO` from that power-up state also switches everything
off. -/
theorem exit_and_setup_switch_everything_off_witness :
    (boot busyGpio [6]).status = Status.running
    ∧ (boot busyGpio [6]).stdin = 6 :: []
    ∧ (healthyEnv 0).wiringPiSetup ≠ -1
    ∧ (healthyEnv 0).softPwmCreate = 0
    ∧ (loopBody (healthyEnv 0) (boot busyGpio [6])).gpio = Gpio.allOff
    ∧ (loopBody (healthyEnv 0) (boot busyGpio [6])).status = Status.exited 0
    ∧ ( setupGPIO (healthyEnv 0) (boot busyGpio [])).gpio = Gpio.allOff :=
  ⟨rfl, rfl, by decide, rfl,
    (exit_and_setup_switch_everything_off (healthyEnv 0) (boot busyGpio [6]) [] busyGpio []
      rfl rfl (by decide) rfl).1,
    (exit_and_setup_switch_everything_off (healthyEnv 0) (boot busyGpio [6]) [] busyGpio []
      rfl rfl (by decide) rfl).2.2.1,
    (exit_and_setup_switch_everything_off (healthyEnv 0) (boot busyGpio [6]) [] busyGpio []
      rfl rfl (by decide) rfl).2.2.2.1⟩

/-- C7, instance: the session "set speed 150, automatic control at 32.5, set
speed" whose input ends there, so that the third pass calls `setFanSpeed` with
the stale speed 150 and the passes after it repeat choice 3: the level stays
within `[0,100]` after six passes. -/
theorem level_invariant_witness :
    (healthyEnv 75).wiringPiSetup ≠ -1
    ∧ (healthyEnv 75).softPwmCreate = 0
    ∧ 0 ≤ (main (healthyEnv 75) busyGpio [3, 150, 5, 3] 6).gpio.fanPwm
    ∧ (main (healthyEnv 75) busyGpio [3, 150, 5, 3] 6).gpio.fanPwm ≤ 100 :=
  ⟨by decide, rfl,
    (level_invariant (healthyEnv 75) busyGpio [3, 150, 5, 3] 6 (by decide) rfl).2.1,
    (level_invariant (healthyEnv 75) busyGpio [3, 150, 5, 3] 6 (by decide) rfl).2.2.1⟩

end HomeAutomation
